import Mathlib

/-!
Shallow embedding of the BilyaBytes ephemeral file-sharing server
(`src/server.js` and its revisions under `src/unnamed/`): the upload
route (`POST /api/upload`), the share page (`GET /share/:uuid`), the
single-file download route (`GET /action/download/:fileId`) and the
per-minute reclamation cron job.  Times are JavaScript epoch
milliseconds modelled as `Int`; an invalid `Date` (NaN) is `none` in
`Option Int`.  Blob-store (Cloudinary) and repository (MongoDB) calls
are modelled by explicit behaviours passed as parameters, and the
sequence of blob-store calls a handler makes is recorded as a trace.
-/

namespace BilyaBytes

/-- JavaScript `a || b` for a possibly-absent string field: `undefined`
and the empty string are falsy, so both fall through to `b`. -/
def jsOr : Option String → String → String
  | some s, b => if s = "" then b else s
  | none, b => b

/-- JavaScript `String.prototype.toLowerCase` (ASCII usage in the source:
file extensions). -/
def jsToLowerCase (s : String) : String :=
  String.mk (s.data.map Char.toLower)

/-- Index of the last `'.'` in a character list, if any. -/
def lastDotIdx : List Char → Option Nat
  | [] => none
  | c :: rest =>
    match lastDotIdx rest with
    | some i => some (i + 1)
    | none => if c = '.' then some 0 else none

/-- The part of a path after the last `'/'` (Node `path` basename step). -/
def baseOf (l : List Char) : List Char :=
  (l.reverse.takeWhile (fun c => c ≠ '/')).reverse

/-- Node `path.extname`: the substring of the basename from its last `'.'`
to the end; empty when there is no dot or the only dot leads the name. -/
def extname (s : String) : String :=
  let b := baseOf s.data
  match lastDotIdx b with
  | none => ""
  | some 0 => ""
  | some i => String.mk (b.drop i)

/-- Node `path.basename(p, ext)`: the part after the last `'/'`, with a
nonempty `ext` stripped when it is a proper suffix. -/
def basenameExt (s ext : String) : String :=
  let b := baseOf s.data
  let e := ext.data
  if e.isEmpty then String.mk b
  else if e.length < b.length && e.isSuffixOf b then
    String.mk (b.take (b.length - e.length))
  else String.mk b

/-- Replace the first occurrence of `pat` in a character list (JavaScript
`String.prototype.replace` with a string pattern replaces only the first
match); the list is returned unchanged when `pat` does not occur. -/
def replaceFirstCh : List Char → List Char → List Char → List Char
  | [], _, _ => []
  | c :: rest, pat, rep =>
    if pat.isPrefixOf (c :: rest) then rep ++ (c :: rest).drop pat.length
    else c :: replaceFirstCh rest pat rep

/-- JavaScript `s.replace(pat, rep)` with a string pattern. -/
def jsReplaceFirst (s pat rep : String) : String :=
  String.mk (replaceFirstCh s.data pat.data rep.data)

/-- Whether `pat` occurs as a contiguous substring (JavaScript
`String.prototype.includes`). -/
def containsSubCh : List Char → List Char → Bool
  | [], pat => pat.isEmpty
  | c :: rest, pat => pat.isPrefixOf (c :: rest) || containsSubCh rest pat

/-- JavaScript `s.includes(pat)`. -/
def containsSub (s pat : String) : Bool :=
  containsSubCh s.data pat.data

/-- Civil calendar view of the current time, as JavaScript `getMonth()`
(0-based), `getDate()` and `getFullYear()` report it in the server's
local time zone.  The embedding passes it alongside the epoch clock
because the source calls `new Date()` separately for comparisons and for
date-string formatting. -/
structure Civil where
  month0 : Nat
  day : Nat
  year : Nat
deriving DecidableEq

/-- JavaScript `String(n).padStart(2, '0')` for a natural number. -/
def padStart2 (n : Nat) : String :=
  if n < 10 then "0" ++ toString n else toString n

/-- The `MM-DD-YYYY` string built by the routes from `new Date()`:
`String(d.getMonth() + 1).padStart(2,'0') + '-' + ...`. -/
def dateStr (c : Civil) : String :=
  padStart2 (c.month0 + 1) ++ "-" ++ padStart2 c.day ++ "-" ++ toString c.year

/-- JavaScript `new Date(now) > new Date(e)` where `e` may be an invalid
Date (`none`): every comparison against NaN is false. -/
def jsGtTime (now : Int) (e : Option Int) : Bool :=
  match e with
  | some t => decide (t < now)
  | none => false

/-- One embedded file record, after the `fileSchema` of
`src/unnamed/part_000` (the latest schema: it adds `cleanName` and
`extension` to the original schema of `src/server.js`; absent fields of
legacy records are `none`).  `fid` is the Mongo subdocument `_id` used by
`GET /action/download/:fileId`; an empty `url`/`publicId` models a
falsy (missing) field. -/
structure FileRecord where
  fid : String
  originalName : String
  cleanName : Option String
  extension : Option String
  url : String
  publicId : String
  size : Nat
  format : String
  resourceType : Option String
deriving DecidableEq

/-- One container document, after `containerSchema`: `internalId` is the
Mongo `_id` targeted by `Container.findByIdAndDelete`, `uuid` the public
share token, `createdAt` the mongoose `default: Date.now` timestamp taken
when the document is constructed, and `expiresAt` the computed expiry
(`none` when `parseInt(expiryDuration)` was NaN, i.e. an invalid Date). -/
structure Container where
  internalId : Nat
  uuid : String
  name : String
  files : List FileRecord
  createdAt : Int
  expiresAt : Option Int
deriving DecidableEq

/-- The repository is the list of persisted containers; `findOne` returns
the first match. -/
def findByUuid (repo : List Container) (u : String) : Option Container :=
  repo.find? (fun c => c.uuid = u)

/-- `Container.find ( expiresAt lt now )` of the cron job: only documents
whose `expiresAt` is a real timestamp strictly before `now` match (an
invalid/absent date never satisfies the range query). -/
def findExpired (repo : List Container) (now : Int) : List Container :=
  repo.filter (fun c =>
    match c.expiresAt with
    | some t => decide (t < now)
    | none => false)

/-- `Container.findOne about files._id` followed by `container.files.id`:
the first container holding a file with the given subdocument id, paired
with that file. -/
def findByFileId (repo : List Container) (i : String) :
    Option (Container × Option FileRecord) :=
  match repo.find? (fun c => c.files.any (fun f => f.fid = i)) with
  | none => none
  | some c => some (c, c.files.find? (fun f => f.fid = i))

/-- One incoming multipart file as multer hands it to the route. -/
structure InFile where
  path : String
  originalname : String
  size : Nat
deriving DecidableEq

/-- Fields of a successful `cloudinary.uploader.upload_large` response
that the route reads (`result.format` may be absent). -/
structure UploadResult where
  secure_url : String
  public_id : String
  format : Option String
  resource_type : String
deriving DecidableEq

/-- Behaviour of one blob-store upload call: success with a response, or
a thrown error; `elapsedMs` is the wall time the awaited call consumes
(every blob-store call is a suspension point, so the clock advances). -/
inductive UploadOutcome where
  | ok (r : UploadResult) (elapsedMs : Nat)
  | err (msg : String) (elapsedMs : Nat)
deriving DecidableEq

/-- Whether an upload outcome is a success. -/
def UploadOutcome.isOk : UploadOutcome → Bool
  | .ok _ _ => true
  | .err _ _ => false

/-- One blob-store API call made by the server, as recorded in the trace:
an upload of a staged local file, or a `destroy` of a public id under a
given `resource_type`. -/
inductive BlobCall where
  | upload (localPath : String) (resourceType : String)
  | destroy (publicId : String) (resourceType : String)
deriving DecidableEq

/-- Whether a blob-store call is a `destroy`. -/
def isDestroyCall : BlobCall → Bool
  | .destroy _ _ => true
  | .upload _ _ => false

/-- The extension list of `src/unnamed/part_000` that forces
`resource_type: raw`. -/
def rawExts : List String :=
  [".apk", ".exe", ".msi", ".dmg", ".iso", ".bin", ".rar", ".zip", ".7z"]

/-- Result of the sequential staging loop of `POST /api/upload`. -/
structure StageResult where
  records : List FileRecord
  calls : List BlobCall
  endTime : Int
  error : Option String
deriving DecidableEq

/-- The `for (const file of files)` staging loop of `POST /api/upload`
(`src/unnamed/part_000` lines 87-119): for each file it computes
`ext`/`cleanName` from the original name, classifies the resource type by
extension, awaits the blob-store upload (outcome given by `ups` at the
file's position, subdocument ids by `fids`), and accumulates the
`uploadedFiles` record.  A thrown upload error aborts the loop
immediately: later files are not consulted. -/
def stageFiles (ups : Nat → UploadOutcome) (fids : Nat → String) :
    List InFile → Nat → Int → StageResult
  | [], _, t => ⟨[], [], t, none⟩
  | f :: rest, k, t =>
    let ex := extname f.originalname
    let resType := if rawExts.contains (jsToLowerCase ex) then "raw" else "auto"
    match ups k with
    | .err msg ms => ⟨[], [.upload f.path resType], t + (ms : Int), some msg⟩
    | .ok r ms =>
      let fr : FileRecord :=
        { fid := fids k
          originalName := f.originalname
          cleanName := some (basenameExt f.originalname ex)
          extension := some ex
          url := r.secure_url
          publicId := r.public_id
          size := f.size
          format := jsOr r.format (jsReplaceFirst ex "." "")
          resourceType := some r.resource_type }
      let tail := stageFiles ups fids rest (k + 1) (t + (ms : Int))
      ⟨fr :: tail.records, BlobCall.upload f.path resType :: tail.calls,
        tail.endTime, tail.error⟩

/-- HTTP-level result of `POST /api/upload`: the 400 empty-list guard,
the 500 catch handler, or the success JSON carrying the persisted
container and share link. -/
inductive CreateResult where
  | badRequest (msg : String)
  | serverError (msg : String)
  | created (c : Container) (shareLink : String)
deriving DecidableEq

/-- Everything observable about one `POST /api/upload` request: its HTTP
result, the blob-store calls it made, the repository after it, and the
time when the handler finished. -/
structure CreateOutcome where
  result : CreateResult
  calls : List BlobCall
  repo : List Container
  endTime : Int
deriving DecidableEq

/-- The message of the mongoose cast error raised when a document whose
`expiresAt` is an invalid Date reaches `save()` (mongoose's Date cast
throws on `isNaN(value.valueOf())`); the route's catch handler surfaces
`err.message` with a 500. -/
def castErrMsg : String :=
  "Container validation failed: expiresAt: Cast to Date failed for value Invalid Date at path expiresAt"

/-- `POST /api/upload` (`src/unnamed/part_000` lines 75-147).  `t0` is
the arrival time: the guard rejects an empty (or absent, modelled empty)
file list with 400 before any blob-store call; `expiryDate` is computed
up front as `new Date()` plus `parseInt(expiryDuration)` minutes
(`durationParsed = none` models NaN, giving an invalid Date); the staging
loop then runs, and on a thrown upload error the catch handler answers
500 — it unlinks local temp files but issues no blob-store call and
persists nothing.  After staging, `newContainer.save()` runs: when
`expiryDate` is an invalid Date, mongoose rejects the cast, so the catch
handler answers 500 and nothing is persisted (the staged blobs stay
orphaned).  Otherwise the container (its `createdAt` mongoose default
samples the clock after staging) is appended to the repository. -/
def createRoute (baseUrl : String) (repo : List Container) (t0 : Int)
    (containerName : Option String) (durationParsed : Option Int)
    (files : List InFile) (ups : Nat → UploadOutcome) (fids : Nat → String)
    (uuid : String) (newId : Nat) : CreateOutcome :=
  if files.isEmpty then
    ⟨.badRequest "No files uploaded", [], repo, t0⟩
  else
    let st := stageFiles ups fids files 0 t0
    match st.error with
    | some msg => ⟨.serverError msg, st.calls, repo, st.endTime⟩
    | none =>
      match durationParsed with
      | none => ⟨.serverError castErrMsg, st.calls, repo, st.endTime⟩
      | some d =>
        let c : Container :=
          { internalId := newId
            uuid := uuid
            name := jsOr containerName "Untitled Transfer"
            files := st.records
            createdAt := st.endTime
            expiresAt := some (t0 + d * 60000) }
        ⟨.created c (baseUrl ++ "/share/" ++ uuid), st.calls, repo ++ [c], st.endTime⟩

/-- The display filename the share page builds for one file
(`src/server.js` revision with data preparation, lines 343-349):
`ext = file.extension || path.extname(file.originalName)`,
`cleanName = file.cleanName || path.basename(file.originalName, ext)`,
then `cleanName + '-' + dateStr + ext` with the retrieval-time date. -/
def shareFilename (civ : Civil) (f : FileRecord) : String :=
  let ex := jsOr f.extension (extname f.originalName)
  let cn := jsOr f.cleanName (basenameExt f.originalName ex)
  cn ++ "-" ++ dateStr civ ++ ex

/-- The download URL the share page injects:
`file.url.replace('/upload/', '/upload/fl_attachment:NAME/')`. -/
def shareDlUrl (civ : Civil) (f : FileRecord) : String :=
  jsReplaceFirst f.url "/upload/" ("/upload/fl_attachment:" ++ shareFilename civ f ++ "/")

/-- The per-file view the share page renders: the record spread together
with its injected `downloadUrl`. -/
def shareFileView (civ : Civil) (f : FileRecord) : FileRecord × String :=
  (f, shareDlUrl civ f)

/-- Rendered outcome of `GET /share/:uuid`: the not-found view, the
`Link Expired` view, or the container page listing each file with its
download URL. -/
inductive ShareResult where
  | notFound
  | expired
  | page (name : String) (files : List (FileRecord × String))
deriving DecidableEq

/-- `GET /share/:uuid` (`src/server.js` second revision, lines 327-367):
load by public uuid (`notFound` when absent), render `Link Expired` when
`new Date() > new Date(container.expiresAt)` — a comparison that is false
for an invalid stored expiry — then map every file to its
disposition-filename download URL using the retrieval-time date and
render the page.  `now` is the epoch clock and `civ` its civil view. -/
def sharePage (repo : List Container) (u : String) (now : Int) (civ : Civil) :
    ShareResult :=
  match findByUuid repo u with
  | none => .notFound
  | some c =>
    if jsGtTime now c.expiresAt then .expired
    else .page c.name (c.files.map (shareFileView civ))

/-- The display filename `GET /action/download/:fileId` builds
(`src/unnamed/part_000` lines 187-189): the fallbacks are the literal
base name `download` and the empty extension — `originalName` is not
consulted. -/
def downloadFilename (civ : Civil) (f : FileRecord) : String :=
  jsOr f.cleanName "download" ++ "-" ++ dateStr civ ++ jsOr f.extension ""

/-- HTTP-level outcome of `GET /action/download/:fileId`: 404, the 500
corrupt-record response, or a redirect to the synthesized URL. -/
inductive DownloadResult where
  | notFound
  | corrupt
  | redirect (url : String)
deriving DecidableEq

/-- `GET /action/download/:fileId` (`src/unnamed/part_000` lines
165-207): locate the owning container by subdocument id (404 when
absent), answer the corrupt-record 500 when the file or its `url` is
falsy, otherwise inject `fl_attachment:` with `downloadFilename` when the
URL contains `/upload/` and redirect. -/
def actionDownload (repo : List Container) (i : String) (civ : Civil) :
    DownloadResult :=
  match findByFileId repo i with
  | none => .notFound
  | some (_, none) => .corrupt
  | some (_, some f) =>
    if f.url = "" then .corrupt
    else if containsSub f.url "/upload/" then
      .redirect (jsReplaceFirst f.url "/upload/"
        ("/upload/fl_attachment:" ++ downloadFilename civ f ++ "/"))
    else .redirect f.url

/-- The three `cloudinary.uploader.destroy` calls the cron job issues for
one file record (`src/unnamed/part_000` lines 215-219): guarded by
`if (file.publicId)`, and always attempted under each of the categories
`video`, `image` and `raw` — the recorded `resourceType` of the record is
never consulted.  Each call's promise rejection is swallowed by
`.catch(function() ...)`, so its outcome cannot influence control flow. -/
def destroyCallsOf (f : FileRecord) : List BlobCall :=
  if f.publicId = "" then []
  else
    [.destroy f.publicId "video", .destroy f.publicId "image",
     .destroy f.publicId "raw"]

/-- Observable outcome of reclaiming (part of) a sweep: the repository
afterwards, the destroy calls issued, and whether an uncaught error
aborted the run. -/
structure RunOutcome where
  repo : List Container
  calls : List BlobCall
  failed : Bool
deriving DecidableEq

/-- The per-container body of the cron job (`src/unnamed/part_000` lines
213-221): issue every (outcome-ignored) blob destroy for the container's
files, then `Container.findByIdAndDelete(container._id)`.  `dOut` is the
blob store's response behaviour (publicId and category to success flag) —
it is received but never consulted, because `.catch(function() ...)`
discards every destroy outcome.  `md i = true` means the metadata delete
of internal id `i` completes without throwing (deleting an already-absent
id resolves to null, which is still a completion); `md i = false` models
a thrown repository error, which this body does not catch. -/
def reclaimContainer (dOut : String → String → Bool) (md : Nat → Bool)
    (c : Container) (repo : List Container) : RunOutcome :=
  let calls := (c.files.map destroyCallsOf).flatten
  if md c.internalId then
    ⟨repo.filter (fun x => x.internalId ≠ c.internalId), calls, false⟩
  else ⟨repo, calls, true⟩

/-- The `for (const container of expiredContainers)` loop of the cron
job: containers are reclaimed in order; an uncaught metadata-delete error
aborts the whole async callback, leaving the remaining containers of this
run unprocessed. -/
def sweepGo (dOut : String → String → Bool) (md : Nat → Bool) :
    List Container → List Container → List BlobCall → RunOutcome
  | [], repo, acc => ⟨repo, acc, false⟩
  | c :: rest, repo, acc =>
    let r := reclaimContainer dOut md c repo
    if r.failed then ⟨r.repo, acc ++ r.calls, true⟩
    else sweepGo dOut md rest r.repo (acc ++ r.calls)

/-- One cron tick (`src/unnamed/part_000` lines 210-223): query the
repository for containers with `expiresAt` strictly before `now`, then
reclaim each in turn. -/
def cronRun (dOut : String → String → Bool) (md : Nat → Bool)
    (repo : List Container) (now : Int) : RunOutcome :=
  sweepGo dOut md (findExpired repo now) repo []

/-! Helper lemmas about the staging loop, shared by several results. -/

/-- The staging loop of `POST /api/upload` only ever issues upload calls:
no `destroy` appears in its trace. -/
theorem stage_no_destroy (ups : Nat → UploadOutcome) (fids : Nat → String) :
    ∀ (files : List InFile) (k : Nat) (t : Int),
      ((stageFiles ups fids files k t).calls).filter isDestroyCall = []
  | [], _, _ => rfl
  | f :: rest, k, t => by
    simp only [stageFiles]
    cases hk : ups k with
    | err msg ms => simp [isDestroyCall]
    | ok r ms => simpa [isDestroyCall] using stage_no_destroy ups fids rest (k + 1) (t + (ms : Int))

/-- When every upload the blob store would serve succeeds, the staging
loop reports no error, stages one record per file, and only moves the
clock forward. -/
theorem stage_all_ok (ups : Nat → UploadOutcome) (fids : Nat → String)
    (hok : ∀ k, (ups k).isOk = true) :
    ∀ (files : List InFile) (k : Nat) (t : Int),
      (stageFiles ups fids files k t).error = none ∧
      (stageFiles ups fids files k t).records.length = files.length ∧
      t ≤ (stageFiles ups fids files k t).endTime
  | [], _, _ => by simp [stageFiles]
  | f :: rest, k, t => by
    cases hk : ups k with
    | err msg ms => have := hok k; rw [hk] at this; simp [UploadOutcome.isOk] at this
    | ok r ms =>
      have ih := stage_all_ok ups fids hok rest (k + 1) (t + (ms : Int))
      refine ⟨?_, ?_, ?_⟩ <;> simp only [stageFiles, hk]
      · exact ih.1
      · simpa using ih.2.1
      · have : t ≤ t + (ms : Int) := by omega
        exact le_trans this ih.2.2

/-! Claim theorems. -/

/-- C9: creation invoked with an empty (or absent, modelled as empty)
file list answers the 400 `No files uploaded` client error, leaves the
repository unchanged, and performs no blob-store call at all. -/
theorem c9_empty_files_rejected (baseUrl : String) (repo : List Container)
    (t0 : Int) (nm : Option String) (dur : Option Int)
    (ups : Nat → UploadOutcome) (fids : Nat → String) (u : String) (nid : Nat) :
    createRoute baseUrl repo t0 nm dur [] ups fids u nid
      = ⟨.badRequest "No files uploaded", [], repo, t0⟩ := rfl

/-- C3: for a container still present in the repository (the sweeper has
not reclaimed it yet) whose expiry is a real timestamp strictly before
the current time, `GET /share/:uuid` renders the `Link Expired` view,
never the contents — logical expiry at read time is checked independently
of reclamation progress. -/
theorem c3_logical_expiry_authoritative (repo : List Container) (u : String)
    (c : Container) (t now : Int) (civ : Civil)
    (hfind : findByUuid repo u = some c) (hexp : c.expiresAt = some t)
    (hlt : t < now) :
    sharePage repo u now civ = ShareResult.expired := by
  simp [sharePage, hfind, jsGtTime, hexp, hlt]

/-- Witness for C3 at a concrete expired container. -/
theorem c3_witness :
    sharePage [⟨1, "u1", "n", [], 0, some 100⟩] "u1" 101 ⟨0, 1, 2025⟩
      = ShareResult.expired :=
  c3_logical_expiry_authoritative [⟨1, "u1", "n", [], 0, some 100⟩] "u1"
    ⟨1, "u1", "n", [], 0, some 100⟩ 100 101 ⟨0, 1, 2025⟩ (by decide) rfl (by decide)

/-- C10 counterexample: a creation request with a non-numeric duration
(`parseInt` NaN) whose single upload succeeds does NOT persist a
container with an invalid expiry — `newContainer.save()` rejects the
Invalid Date cast, the route answers 500 with the cast error, and the
repository is left empty.  The claimed origin of an invalid-expiry
container ("as results from a non-numeric requested duration being
parsed at creation") therefore never occurs. -/
theorem c10_counterexample :
    createRoute "http://b" [] 0 (some "n") none [⟨"tmp/a", "a.txt", 10⟩]
        (fun _ => UploadOutcome.ok
          ⟨"https://h/upload/v1/a.txt", "p1", some "txt", "raw"⟩ 0)
        (fun _ => "fid") "u1" 7
      = ⟨CreateResult.serverError castErrMsg,
          [BlobCall.upload "tmp/a" "auto"], [], 0⟩ := rfl

/-- C10 as amended: an invalid-expiry container never arises from
creation — a non-numeric duration reaches `save()`, where mongoose
rejects the Invalid Date cast, so the route answers 500 and persists
nothing.  Hypothetically, were the repository to hold a container whose
`expiresAt` is invalid, the share page would render its contents at
every time (the `new Date() > new Date(NaN)` comparison is never true)
and the sweeper's expired-as-of-now query would never select it, so it
would remain retrievable indefinitely and never be reclaimed. -/
theorem c10_amended :
    (∀ (repo : List Container) (u : String) (c : Container) (now : Int) (civ : Civil),
        findByUuid repo u = some c → c.expiresAt = none →
        sharePage repo u now civ
          = ShareResult.page c.name (c.files.map (shareFileView civ))) ∧
    (∀ (repo : List Container) (now : Int) (c : Container),
        c.expiresAt = none → c ∉ findExpired repo now) ∧
    (∀ (baseUrl : String) (repo : List Container) (t0 : Int) (nm : Option String)
        (files : List InFile) (ups : Nat → UploadOutcome) (fids : Nat → String)
        (u : String) (nid : Nat),
        files ≠ [] → (∀ k, (ups k).isOk = true) →
        (createRoute baseUrl repo t0 nm none files ups fids u nid).result
          = CreateResult.serverError castErrMsg ∧
        (createRoute baseUrl repo t0 nm none files ups fids u nid).repo = repo) := by
  refine ⟨?_, ?_, ?_⟩
  · intro repo u c now civ hfind hexp
    simp [sharePage, hfind, jsGtTime, hexp]
  · intro repo now c hexp hmem
    simp only [findExpired, List.mem_filter, hexp] at hmem
    exact absurd hmem.2 (by simp)
  · intro baseUrl repo t0 nm files ups fids u nid hne hok
    have hf : files.isEmpty = false := by
      cases files with
      | nil => exact absurd rfl hne
      | cons a l => rfl
    have hst := stage_all_ok ups fids hok files 0 t0
    constructor <;>
      simp [createRoute, hf, hst.1]

/-- Witness for the amended C10: a concrete container with an invalid
expiry is rendered with its contents at an arbitrarily late time, and
creation with a non-numeric duration persists nothing. -/
theorem c10_amended_witness :
    sharePage [⟨1, "u1", "n", [], 0, none⟩] "u1" 999999 ⟨0, 1, 2025⟩
      = ShareResult.page "n" [] ∧
    (createRoute "http://b" [] 0 (some "n") none [⟨"tmp/a", "a.txt", 10⟩]
        (fun _ => UploadOutcome.ok
          ⟨"https://h/upload/v1/a.txt", "p1", some "txt", "raw"⟩ 0)
        (fun _ => "fid") "u1" 7).repo = [] :=
  ⟨c10_amended.1 [⟨1, "u1", "n", [], 0, none⟩] "u1"
      ⟨1, "u1", "n", [], 0, none⟩ 999999 ⟨0, 1, 2025⟩ (by decide) rfl,
   (c10_amended.2.2 "http://b" [] 0 (some "n") [⟨"tmp/a", "a.txt", 10⟩]
      (fun _ => UploadOutcome.ok
        ⟨"https://h/upload/v1/a.txt", "p1", some "txt", "raw"⟩ 0)
      (fun _ => "fid") "u1" 7 (by simp) (fun _ => rfl)).2⟩

/-- C2: reclaiming the same container twice (crash-then-retry) surfaces
no error either time — for every blob-store response behaviour, since
destroy outcomes are discarded by the per-call catch — and exactly one
metadata deletion takes effect: the first run removes the container's
internal id from the repository and the second run's metadata delete of
the same id is a no-op. -/
theorem c2_reclaim_twice_idempotent (dOut1 dOut2 : String → String → Bool)
    (md : Nat → Bool) (c : Container) (repo : List Container)
    (hmd : md c.internalId = true) :
    (reclaimContainer dOut1 md c repo).failed = false ∧
    (reclaimContainer dOut2 md c (reclaimContainer dOut1 md c repo).repo).failed
      = false ∧
    (reclaimContainer dOut2 md c (reclaimContainer dOut1 md c repo).repo).repo
      = (reclaimContainer dOut1 md c repo).repo ∧
    ∀ x ∈ (reclaimContainer dOut1 md c repo).repo, x.internalId ≠ c.internalId := by
  refine ⟨by simp [reclaimContainer, hmd], by simp [reclaimContainer, hmd], ?_, ?_⟩
  · simp only [reclaimContainer, hmd, if_true]
    rw [List.filter_filter]
    simp
  · intro x hx
    simp only [reclaimContainer, hmd, if_true] at hx
    have := (List.mem_filter.mp hx).2
    simpa using this

/-- Witness for C2 at a concrete expired container, with blob-store
behaviours that report failure for every destroy in the first run and
success in the second. -/
theorem c2_witness :
    (reclaimContainer (fun _ _ => false) (fun _ => true)
        ⟨1, "u1", "n", [], 0, some 0⟩ [⟨1, "u1", "n", [], 0, some 0⟩]).failed
      = false ∧
    (reclaimContainer (fun _ _ => true) (fun _ => true) ⟨1, "u1", "n", [], 0, some 0⟩
        (reclaimContainer (fun _ _ => false) (fun _ => true)
          ⟨1, "u1", "n", [], 0, some 0⟩ [⟨1, "u1", "n", [], 0, some 0⟩]).repo).failed
      = false ∧
    (reclaimContainer (fun _ _ => true) (fun _ => true) ⟨1, "u1", "n", [], 0, some 0⟩
        (reclaimContainer (fun _ _ => false) (fun _ => true)
          ⟨1, "u1", "n", [], 0, some 0⟩ [⟨1, "u1", "n", [], 0, some 0⟩]).repo).repo
      = (reclaimContainer (fun _ _ => false) (fun _ => true)
          ⟨1, "u1", "n", [], 0, some 0⟩ [⟨1, "u1", "n", [], 0, some 0⟩]).repo ∧
    ∀ x ∈ (reclaimContainer (fun _ _ => false) (fun _ => true)
        ⟨1, "u1", "n", [], 0, some 0⟩ [⟨1, "u1", "n", [], 0, some 0⟩]).repo,
      x.internalId ≠ (1 : Nat) :=
  c2_reclaim_twice_idempotent (fun _ _ => false) (fun _ _ => true) (fun _ => true)
    ⟨1, "u1", "n", [], 0, some 0⟩ [⟨1, "u1", "n", [], 0, some 0⟩] rfl

/-- C1 counterexample: in a two-file creation whose second upload throws
after the first was staged (public id `p1`), the request fails with 500
and nothing is persisted, but the trace holds the two upload calls and
zero `destroy` calls — the blob staged for `p1` is never deleted from the
blob store, contradicting the claimed cleanup (the catch handler removes
only local temp files). -/
theorem c1_counterexample :
    createRoute "http://b" [] 0 (some "n") (some 5)
        [⟨"tmp/a", "a.txt", 10⟩, ⟨"tmp/b", "b.txt", 20⟩]
        (fun k => if k = 0 then
            UploadOutcome.ok ⟨"https://h/upload/v1/a.txt", "p1", some "txt", "raw"⟩ 1
          else UploadOutcome.err "boom" 1)
        (fun _ => "fid") "u1" 7
      = ⟨CreateResult.serverError "boom",
          [BlobCall.upload "tmp/a" "auto", BlobCall.upload "tmp/b" "auto"], [], 2⟩ ∧
    ((createRoute "http://b" [] 0 (some "n") (some 5)
        [⟨"tmp/a", "a.txt", 10⟩, ⟨"tmp/b", "b.txt", 20⟩]
        (fun k => if k = 0 then
            UploadOutcome.ok ⟨"https://h/upload/v1/a.txt", "p1", some "txt", "raw"⟩ 1
          else UploadOutcome.err "boom" 1)
        (fun _ => "fid") "u1" 7).calls.filter isDestroyCall).length = 0 := by
  exact ⟨rfl, rfl⟩

/-- C1 as amended: on a partial upload failure the whole creation fails
with 500 and no container is persisted, but no blob cleanup happens — in
fact the upload route never issues a single blob-store `destroy` call on
any path, so blobs staged before the failure are orphaned. -/
theorem c1_amended (baseUrl : String) (repo : List Container) (t0 : Int)
    (nm : Option String) (dur : Option Int) (files : List InFile)
    (ups : Nat → UploadOutcome) (fids : Nat → String) (u : String) (nid : Nat) :
    ((createRoute baseUrl repo t0 nm dur files ups fids u nid).calls.filter
        isDestroyCall = []) ∧
    (∀ msg,
      (createRoute baseUrl repo t0 nm dur files ups fids u nid).result
        = CreateResult.serverError msg →
      (createRoute baseUrl repo t0 nm dur files ups fids u nid).repo = repo) := by
  constructor
  · by_cases hf : files.isEmpty = true
    · simp [createRoute, hf]
    · simp only [createRoute, hf, Bool.false_eq_true, if_false]
      cases herr : (stageFiles ups fids files 0 t0).error with
      | some msg => simpa [herr] using stage_no_destroy ups fids files 0 t0
      | none =>
        cases dur with
        | none => simpa [herr] using stage_no_destroy ups fids files 0 t0
        | some d => simpa [herr] using stage_no_destroy ups fids files 0 t0
  · intro msg h
    by_cases hf : files.isEmpty = true
    · simp [createRoute, hf] at h
    · simp only [createRoute, hf, Bool.false_eq_true, if_false] at h ⊢
      cases herr : (stageFiles ups fids files 0 t0).error with
      | some m => simp [herr]
      | none =>
        cases dur with
        | none => simp [herr]
        | some d => simp [herr] at h

/-- Witness for the amended C1 at the two-file partial failure. -/
theorem c1_amended_witness :
    ((createRoute "http://b" [] 0 (some "n") (some 5)
        [⟨"tmp/a", "a.txt", 10⟩, ⟨"tmp/b", "b.txt", 20⟩]
        (fun k => if k = 0 then
            UploadOutcome.ok ⟨"https://h/upload/v1/a.txt", "p1", some "txt", "raw"⟩ 1
          else UploadOutcome.err "boom" 1)
        (fun _ => "fid") "u1" 7).calls.filter isDestroyCall = []) ∧
    (createRoute "http://b" [] 0 (some "n") (some 5)
        [⟨"tmp/a", "a.txt", 10⟩, ⟨"tmp/b", "b.txt", 20⟩]
        (fun k => if k = 0 then
            UploadOutcome.ok ⟨"https://h/upload/v1/a.txt", "p1", some "txt", "raw"⟩ 1
          else UploadOutcome.err "boom" 1)
        (fun _ => "fid") "u1" 7).repo = [] :=
  ⟨(c1_amended "http://b" [] 0 (some "n") (some 5)
      [⟨"tmp/a", "a.txt", 10⟩, ⟨"tmp/b", "b.txt", 20⟩]
      (fun k => if k = 0 then
          UploadOutcome.ok ⟨"https://h/upload/v1/a.txt", "p1", some "txt", "raw"⟩ 1
        else UploadOutcome.err "boom" 1)
      (fun _ => "fid") "u1" 7).1,
   (c1_amended "http://b" [] 0 (some "n") (some 5)
      [⟨"tmp/a", "a.txt", 10⟩, ⟨"tmp/b", "b.txt", 20⟩]
      (fun k => if k = 0 then
          UploadOutcome.ok ⟨"https://h/upload/v1/a.txt", "p1", some "txt", "raw"⟩ 1
        else UploadOutcome.err "boom" 1)
      (fun _ => "fid") "u1" 7).2 "boom" rfl⟩

/-- C4 counterexample: a creation request with duration `-5` minutes is
not rejected — it succeeds with 200, persists the container, and the
persisted `expiresAt` (request time minus five minutes) is strictly
before `createdAt`, as the final `jsGtTime` conjunct states. -/
theorem c4_counterexample :
    createRoute "http://b" [] 0 (some "n") (some (-5)) [⟨"tmp/a", "a.txt", 10⟩]
        (fun _ => UploadOutcome.ok
          ⟨"https://h/upload/v1/a.txt", "p1", some "txt", "raw"⟩ 0)
        (fun _ => "fid") "u1" 7
      = ⟨CreateResult.created
            ⟨7, "u1", "n",
              [⟨"fid", "a.txt", some "a", some ".txt", "https://h/upload/v1/a.txt",
                "p1", 10, "txt", some "raw"⟩], 0, some (-300000)⟩
            "http://b/share/u1",
          [BlobCall.upload "tmp/a" "auto"],
          [⟨7, "u1", "n",
            [⟨"fid", "a.txt", some "a", some ".txt", "https://h/upload/v1/a.txt",
              "p1", 10, "txt", some "raw"⟩], 0, some (-300000)⟩], 0⟩ ∧
    ((createRoute "http://b" [] 0 (some "n") (some (-5)) [⟨"tmp/a", "a.txt", 10⟩]
        (fun _ => UploadOutcome.ok
          ⟨"https://h/upload/v1/a.txt", "p1", some "txt", "raw"⟩ 0)
        (fun _ => "fid") "u1" 7).repo.all
      (fun c => jsGtTime c.createdAt c.expiresAt)) = true := by
  exact ⟨rfl, rfl⟩

/-- C4 as amended: the upload route performs no duration validation of
its own.  Whenever the file list is nonempty and the blob store serves
every upload, a numeric parsed duration — positive or not — is accepted:
creation succeeds and persists a container whose `expiresAt` is the
request-arrival time plus the parsed duration, which for a non-positive
duration is not after `createdAt` (the container is born expired).  A
non-numeric duration is not rejected as a client error either: it fails
only at save time, when mongoose rejects the Invalid Date cast — a 500
server error, not a 4xx `ValidationError` — and persists nothing. -/
theorem c4_amended (baseUrl : String) (repo : List Container) (t0 : Int)
    (nm : Option String) (dur : Option Int) (files : List InFile)
    (ups : Nat → UploadOutcome) (fids : Nat → String) (u : String) (nid : Nat)
    (hne : files ≠ []) (hok : ∀ k, (ups k).isOk = true) :
    (∀ d, dur = some d →
      ∃ c link,
        (createRoute baseUrl repo t0 nm dur files ups fids u nid).result
          = CreateResult.created c link ∧
        (createRoute baseUrl repo t0 nm dur files ups fids u nid).repo
          = repo ++ [c] ∧
        c.files.length = files.length ∧
        c.expiresAt = some (t0 + d * 60000) ∧
        t0 ≤ c.createdAt ∧
        (d ≤ 0 → t0 + d * 60000 ≤ c.createdAt)) ∧
    (dur = none →
      (createRoute baseUrl repo t0 nm dur files ups fids u nid).result
        = CreateResult.serverError castErrMsg ∧
      (createRoute baseUrl repo t0 nm dur files ups fids u nid).repo = repo) := by
  have hf : files.isEmpty = false := by
    cases files with
    | nil => exact absurd rfl hne
    | cons a l => rfl
  have hst := stage_all_ok ups fids hok files 0 t0
  constructor
  · intro d hd
    subst hd
    refine ⟨⟨nid, u, jsOr nm "Untitled Transfer",
        (stageFiles ups fids files 0 t0).records,
        (stageFiles ups fids files 0 t0).endTime,
        some (t0 + d * 60000)⟩,
      baseUrl ++ "/share/" ++ u, ?_, ?_, hst.2.1, rfl, hst.2.2, ?_⟩
    · simp [createRoute, hf, hst.1]
    · simp [createRoute, hf, hst.1]
    · intro hdle
      show t0 + d * 60000 ≤ (stageFiles ups fids files 0 t0).endTime
      have := hst.2.2
      omega
  · intro hd
    subst hd
    constructor <;> simp [createRoute, hf, hst.1]

/-- Witness for the amended C4: the concrete negative-duration request
persists one container, and the concrete non-numeric-duration request
persists nothing. -/
theorem c4_amended_witness :
    (createRoute "http://b" [] 0 (some "n") (some (-5)) [⟨"tmp/a", "a.txt", 10⟩]
        (fun _ => UploadOutcome.ok
          ⟨"https://h/upload/v1/a.txt", "p1", some "txt", "raw"⟩ 0)
        (fun _ => "fid") "u1" 7).repo.length = 1 ∧
    (createRoute "http://b" [] 0 (some "n") none [⟨"tmp/a", "a.txt", 10⟩]
        (fun _ => UploadOutcome.ok
          ⟨"https://h/upload/v1/a.txt", "p1", some "txt", "raw"⟩ 0)
        (fun _ => "fid") "u1" 7).repo = [] := by
  constructor
  · obtain ⟨c, link, _, h2, _⟩ :=
      (c4_amended "http://b" [] 0 (some "n") (some (-5)) [⟨"tmp/a", "a.txt", 10⟩]
        (fun _ => UploadOutcome.ok
          ⟨"https://h/upload/v1/a.txt", "p1", some "txt", "raw"⟩ 0)
        (fun _ => "fid") "u1" 7 (by simp) (fun _ => rfl)).1 (-5) rfl
    rw [h2]
    rfl
  · exact ((c4_amended "http://b" [] 0 (some "n") none [⟨"tmp/a", "a.txt", 10⟩]
      (fun _ => UploadOutcome.ok
        ⟨"https://h/upload/v1/a.txt", "p1", some "txt", "raw"⟩ 0)
      (fun _ => "fid") "u1" 7 (by simp) (fun _ => rfl)).2 rfl).2

/-- C6 counterexample: a valid one-file creation with duration 1 minute
whose single upload consumes one millisecond persists `createdAt = 1` but
`expiresAt = 60000` (request arrival plus one minute), so
`expiresAt = createdAt + 60000` fails — the expiry is computed from the
request-arrival clock sample, not from the later `createdAt` sample. -/
theorem c6_counterexample :
    (createRoute "http://b" [] 0 (some "n") (some 1) [⟨"tmp/a", "a.txt", 10⟩]
        (fun _ => UploadOutcome.ok
          ⟨"https://h/upload/v1/a.txt", "p1", some "txt", "raw"⟩ 1)
        (fun _ => "fid") "u1" 7).result
      = CreateResult.created
          ⟨7, "u1", "n",
            [⟨"fid", "a.txt", some "a", some ".txt", "https://h/upload/v1/a.txt",
              "p1", 10, "txt", some "raw"⟩], 1, some 60000⟩
          "http://b/share/u1" ∧
    ((createRoute "http://b" [] 0 (some "n") (some 1) [⟨"tmp/a", "a.txt", 10⟩]
        (fun _ => UploadOutcome.ok
          ⟨"https://h/upload/v1/a.txt", "p1", some "txt", "raw"⟩ 1)
        (fun _ => "fid") "u1" 7).repo.all
      (fun c => decide (c.expiresAt ≠ some (c.createdAt + 1 * 60000)))) = true := by
  exact ⟨rfl, rfl⟩

/-- C6 as amended: a valid creation with N ≥ 1 files and duration D > 0
stages all N files (`files.length = N`) and persists
`expiresAt = t0 + D` minutes where `t0` is the request-arrival time;
since `createdAt` is sampled only after staging, `expiresAt` equals
`createdAt + D` minutes exactly precisely when staging consumed no
time. -/
theorem c6_amended (baseUrl : String) (repo : List Container) (t0 : Int)
    (nm : Option String) (files : List InFile)
    (ups : Nat → UploadOutcome) (fids : Nat → String) (u : String) (nid : Nat)
    (D : Int) (hD : 0 < D)
    (hne : files ≠ []) (hok : ∀ k, (ups k).isOk = true) :
    ∃ c link,
      (createRoute baseUrl repo t0 nm (some D) files ups fids u nid).result
        = CreateResult.created c link ∧
      c.files.length = files.length ∧
      c.expiresAt = some (t0 + D * 60000) ∧
      (c.createdAt = t0 → c.expiresAt = some (c.createdAt + D * 60000)) := by
  have hf : files.isEmpty = false := by
    cases files with
    | nil => exact absurd rfl hne
    | cons a l => rfl
  have hst := stage_all_ok ups fids hok files 0 t0
  refine ⟨⟨nid, u, jsOr nm "Untitled Transfer",
      (stageFiles ups fids files 0 t0).records,
      (stageFiles ups fids files 0 t0).endTime,
      some (t0 + D * 60000)⟩,
    baseUrl ++ "/share/" ++ u, ?_, hst.2.1, rfl, ?_⟩
  · simp [createRoute, hf, hst.1]
  · intro h
    have h2 : (stageFiles ups fids files 0 t0).endTime = t0 := h
    show some (t0 + D * 60000) = some ((stageFiles ups fids files 0 t0).endTime + D * 60000)
    rw [h2]

/-- Witness for the amended C6 at a concrete one-file request whose
upload is instantaneous. -/
theorem c6_amended_witness :
    ∃ c link,
      (createRoute "http://b" [] 0 (some "n") (some 1) [⟨"tmp/a", "a.txt", 10⟩]
          (fun _ => UploadOutcome.ok
            ⟨"https://h/upload/v1/a.txt", "p1", some "txt", "raw"⟩ 0)
          (fun _ => "fid") "u1" 7).result
        = CreateResult.created c link ∧
      c.files.length = 1 ∧
      c.expiresAt = some ((0 : Int) + 1 * 60000) ∧
      (c.createdAt = 0 → c.expiresAt = some (c.createdAt + 1 * 60000)) :=
  c6_amended "http://b" [] 0 (some "n") [⟨"tmp/a", "a.txt", 10⟩]
    (fun _ => UploadOutcome.ok
      ⟨"https://h/upload/v1/a.txt", "p1", some "txt", "raw"⟩ 0)
    (fun _ => "fid") "u1" 7 1 (by decide) (by simp) (fun _ => rfl)

/-! Helper lemmas about the sweep loop. -/

/-- The per-container reclamation body issues exactly the destroy calls
of the container's files, whatever the metadata delete does. -/
theorem reclaim_calls (dOut : String → String → Bool) (md : Nat → Bool)
    (c : Container) (repo : List Container) :
    (reclaimContainer dOut md c repo).calls
      = (c.files.map destroyCallsOf).flatten := by
  unfold reclaimContainer
  split <;> rfl

/-- Unfolding step of the sweep loop for a head container whose metadata
delete completes: filter it out and continue with its calls appended. -/
theorem sweepGo_cons_ok (dOut : String → String → Bool) (md : Nat → Bool)
    (c : Container) (rest repo : List Container) (acc : List BlobCall)
    (hmd : md c.internalId = true) :
    sweepGo dOut md (c :: rest) repo acc
      = sweepGo dOut md rest (repo.filter fun y => y.internalId ≠ c.internalId)
          (acc ++ (c.files.map destroyCallsOf).flatten) := by
  simp [sweepGo, reclaimContainer, hmd]

/-- Unfolding step of the sweep loop for a head container whose metadata
delete throws: the run aborts with the repository untouched. -/
theorem sweepGo_cons_fail (dOut : String → String → Bool) (md : Nat → Bool)
    (c : Container) (rest repo : List Container) (acc : List BlobCall)
    (hmd : md c.internalId = false) :
    sweepGo dOut md (c :: rest) repo acc
      = ⟨repo, acc ++ (c.files.map destroyCallsOf).flatten, true⟩ := by
  simp [sweepGo, reclaimContainer, hmd]

/-- The sweep loop only ever removes containers: its final repository is
contained in the starting one. -/
theorem sweepGo_repo_sub (dOut : String → String → Bool) (md : Nat → Bool) :
    ∀ (l repo : List Container) (acc : List BlobCall) (x : Container),
      x ∈ (sweepGo dOut md l repo acc).repo → x ∈ repo
  | [], _, _, _ => fun h => h
  | c :: rest, repo, acc, x => by
    cases hmd : md c.internalId with
    | false =>
      rw [sweepGo_cons_fail dOut md c rest repo acc hmd]
      exact fun h => h
    | true =>
      rw [sweepGo_cons_ok dOut md c rest repo acc hmd]
      intro h
      exact (List.mem_filter.mp (sweepGo_repo_sub dOut md rest _ _ x h)).1

/-- The blob-store destroy behaviour never influences the sweep: its
responses are discarded by the per-call catch. -/
theorem sweepGo_dOut_irrelevant (dOut1 dOut2 : String → String → Bool)
    (md : Nat → Bool) :
    ∀ (l repo : List Container) (acc : List BlobCall),
      sweepGo dOut1 md l repo acc = sweepGo dOut2 md l repo acc
  | [], _, _ => rfl
  | c :: rest, repo, acc => by
    cases hmd : md c.internalId with
    | false =>
      rw [sweepGo_cons_fail dOut1 md c rest repo acc hmd,
        sweepGo_cons_fail dOut2 md c rest repo acc hmd]
    | true =>
      rw [sweepGo_cons_ok dOut1 md c rest repo acc hmd,
        sweepGo_cons_ok dOut2 md c rest repo acc hmd]
      exact sweepGo_dOut_irrelevant dOut1 dOut2 md rest _ _

/-- When the metadata delete succeeds for every container of the work
list, the sweep completes without failure, removes each of them, and
issues each one's destroy calls in order. -/
theorem sweepGo_all_ok (dOut : String → String → Bool) (md : Nat → Bool) :
    ∀ (l repo : List Container) (acc : List BlobCall),
      (∀ c ∈ l, md c.internalId = true) →
      (sweepGo dOut md l repo acc).failed = false ∧
      (∀ c ∈ l, c ∉ (sweepGo dOut md l repo acc).repo) ∧
      (sweepGo dOut md l repo acc).calls
        = acc ++ (l.map (fun c => (c.files.map destroyCallsOf).flatten)).flatten
  | [], repo, acc, _ => by simp [sweepGo]
  | c :: rest, repo, acc, h => by
    have hmd : md c.internalId = true := h c (List.mem_cons_self c rest)
    have ih := sweepGo_all_ok dOut md rest
      (repo.filter fun y => y.internalId ≠ c.internalId)
      (acc ++ (c.files.map destroyCallsOf).flatten)
      (fun x hx => h x (List.mem_cons_of_mem c hx))
    rw [sweepGo_cons_ok dOut md c rest repo acc hmd]
    refine ⟨ih.1, ?_, ?_⟩
    · intro x hx hmem
      rcases List.mem_cons.mp hx with hx | hx
      · subst hx
        have h2 := sweepGo_repo_sub dOut md rest _ _ x hmem
        have h3 := (List.mem_filter.mp h2).2
        exact (of_decide_eq_true h3) rfl
      · exact ih.2.1 x hx hmem
    · rw [ih.2.2]
      simp [List.append_assoc]

/-- C5 counterexample: a sweep over two expired containers where the
first one's metadata delete throws.  The run aborts after the first
container: it reports failure, both containers are still in the
repository, and the second container's blob (`p2`) is never attempted —
no destroy call for it appears in the trace — contradicting the claimed
independence of containers within one run. -/
theorem c5_counterexample :
    cronRun (fun _ _ => true) (fun i => decide (i ≠ 1))
        [⟨1, "u1", "n1",
            [⟨"f1", "a.txt", some "a", some ".txt", "https://h/upload/a", "p1",
              1, "txt", some "raw"⟩], 0, some 10⟩,
         ⟨2, "u2", "n2",
            [⟨"f2", "b.txt", some "b", some ".txt", "https://h/upload/b", "p2",
              1, "txt", some "raw"⟩], 0, some 10⟩] 11
      = ⟨[⟨1, "u1", "n1",
            [⟨"f1", "a.txt", some "a", some ".txt", "https://h/upload/a", "p1",
              1, "txt", some "raw"⟩], 0, some 10⟩,
          ⟨2, "u2", "n2",
            [⟨"f2", "b.txt", some "b", some ".txt", "https://h/upload/b", "p2",
              1, "txt", some "raw"⟩], 0, some 10⟩],
         [BlobCall.destroy "p1" "video", BlobCall.destroy "p1" "image",
          BlobCall.destroy "p1" "raw"], true⟩ ∧
    BlobCall.destroy "p2" "raw" ∉
      (cronRun (fun _ _ => true) (fun i => decide (i ≠ 1))
        [⟨1, "u1", "n1",
            [⟨"f1", "a.txt", some "a", some ".txt", "https://h/upload/a", "p1",
              1, "txt", some "raw"⟩], 0, some 10⟩,
         ⟨2, "u2", "n2",
            [⟨"f2", "b.txt", some "b", some ".txt", "https://h/upload/b", "p2",
              1, "txt", some "raw"⟩], 0, some 10⟩] 11).calls := by
  exact ⟨rfl, by decide⟩

/-- C5 as amended: per-blob destroy failures are fully isolated (the
blob store's responses cannot influence the sweep at all), and when every
expired container's metadata delete succeeds the run completes without
failure, removes every expired container and issues all their destroy
calls; but an uncaught metadata-delete error aborts the run for the
remaining containers, as the counterexample shows. -/
theorem c5_amended (dOut1 dOut2 : String → String → Bool) (md : Nat → Bool)
    (repo : List Container) (now : Int)
    (hmd : ∀ c ∈ findExpired repo now, md c.internalId = true) :
    cronRun dOut1 md repo now = cronRun dOut2 md repo now ∧
    (cronRun dOut1 md repo now).failed = false ∧
    (∀ c ∈ findExpired repo now, c ∉ (cronRun dOut1 md repo now).repo) ∧
    (cronRun dOut1 md repo now).calls
      = ((findExpired repo now).map
          (fun c => (c.files.map destroyCallsOf).flatten)).flatten := by
  have hall := sweepGo_all_ok dOut1 md (findExpired repo now) repo [] hmd
  exact ⟨sweepGo_dOut_irrelevant dOut1 dOut2 md (findExpired repo now) repo [],
    hall.1, hall.2.1, by simpa using hall.2.2⟩

/-- Witness for the amended C5 on a concrete two-container sweep whose
metadata deletes all succeed. -/
theorem c5_amended_witness :
    cronRun (fun _ _ => false) (fun _ => true)
        [⟨1, "u1", "n1",
            [⟨"f1", "a.txt", some "a", some ".txt", "https://h/upload/a", "p1",
              1, "txt", some "raw"⟩], 0, some 10⟩] 11
      = cronRun (fun _ _ => true) (fun _ => true)
        [⟨1, "u1", "n1",
            [⟨"f1", "a.txt", some "a", some ".txt", "https://h/upload/a", "p1",
              1, "txt", some "raw"⟩], 0, some 10⟩] 11 :=
  (c5_amended (fun _ _ => false) (fun _ _ => true) (fun _ => true)
    [⟨1, "u1", "n1",
        [⟨"f1", "a.txt", some "a", some ".txt", "https://h/upload/a", "p1",
          1, "txt", some "raw"⟩], 0, some 10⟩] 11
    (fun _ _ => rfl)).1

/-- C7 counterexample: a file record whose storage category is recorded
as `raw` is nevertheless destroyed under all three categories — the
reclamation ignores the recorded `resourceType` instead of issuing the
single delete the claim describes. -/
theorem c7_counterexample :
    (reclaimContainer (fun _ _ => true) (fun _ => true)
        ⟨1, "u1", "n",
          [⟨"f1", "a.apk", some "a", some ".apk", "https://h/upload/a", "p1",
            1, "apk", some "raw"⟩], 0, some 0⟩ []).calls
      = [BlobCall.destroy "p1" "video", BlobCall.destroy "p1" "image",
         BlobCall.destroy "p1" "raw"] ∧
    [BlobCall.destroy "p1" "video", BlobCall.destroy "p1" "image",
     BlobCall.destroy "p1" "raw"] ≠ [BlobCall.destroy "p1" "raw"] := by
  exact ⟨rfl, by decide⟩

/-- C7 as amended: reclamation never consults the recorded category —
for every file record with a nonempty public id it attempts deletion
under each of the three known categories (`video`, `image`, `raw`),
tolerating the inevitable misses, and it skips records with a falsy
public id entirely. -/
theorem c7_amended (dOut : String → String → Bool) (md : Nat → Bool)
    (c : Container) (repo : List Container) (f : FileRecord)
    (hf : f ∈ c.files) (hp : f.publicId ≠ "") :
    BlobCall.destroy f.publicId "video" ∈ (reclaimContainer dOut md c repo).calls ∧
    BlobCall.destroy f.publicId "image" ∈ (reclaimContainer dOut md c repo).calls ∧
    BlobCall.destroy f.publicId "raw" ∈ (reclaimContainer dOut md c repo).calls ∧
    (∀ g : FileRecord, g.publicId = "" → destroyCallsOf g = []) := by
  have hcalls := reclaim_calls dOut md c repo
  have hmem : ∀ b ∈ destroyCallsOf f, b ∈ (reclaimContainer dOut md c repo).calls := by
    intro b hb
    rw [hcalls]
    exact List.mem_flatten.mpr ⟨destroyCallsOf f, List.mem_map_of_mem _ hf, hb⟩
  have hdc : destroyCallsOf f
      = [.destroy f.publicId "video", .destroy f.publicId "image",
         .destroy f.publicId "raw"] := by
    simp [destroyCallsOf, hp]
  refine ⟨hmem _ ?_, hmem _ ?_, hmem _ ?_, ?_⟩
  · rw [hdc]; exact List.mem_cons_self _ _
  · rw [hdc]; simp
  · rw [hdc]; simp
  · intro g hg
    simp [destroyCallsOf, hg]

/-- Witness for the amended C7 at the concrete raw-category record. -/
theorem c7_amended_witness :
    BlobCall.destroy "p1" "video" ∈ (reclaimContainer (fun _ _ => true) (fun _ => true)
      ⟨1, "u1", "n",
        [⟨"f1", "a.apk", some "a", some ".apk", "https://h/upload/a", "p1",
          1, "apk", some "raw"⟩], 0, some 0⟩ []).calls :=
  (c7_amended (fun _ _ => true) (fun _ => true)
    ⟨1, "u1", "n",
      [⟨"f1", "a.apk", some "a", some ".apk", "https://h/upload/a", "p1",
        1, "apk", some "raw"⟩], 0, some 0⟩ []
    ⟨"f1", "a.apk", some "a", some ".apk", "https://h/upload/a", "p1",
      1, "apk", some "raw"⟩ (List.mem_singleton.mpr rfl) (by decide)).1

/-- C8 counterexample: for a legacy record (no stored `cleanName` or
`extension`) with `originalName` `report.pdf`, the single-file download
route redirects with the disposition filename `download-01-02-2025` —
the literal fallback base `download` with an empty extension — not the
`report-01-02-2025.pdf` that derivation from `originalName` (as the
claim states for both routes) would produce. -/
theorem c8_counterexample :
    actionDownload
        [⟨1, "u1", "n",
            [⟨"f1", "report.pdf", none, none, "https://h/upload/v1/p.pdf", "p1",
              1, "pdf", some "raw"⟩], 0, some 999999⟩] "f1" ⟨0, 2, 2025⟩
      = DownloadResult.redirect
          "https://h/upload/fl_attachment:download-01-02-2025/v1/p.pdf" ∧
    DownloadResult.redirect
        "https://h/upload/fl_attachment:download-01-02-2025/v1/p.pdf"
      ≠ DownloadResult.redirect
          "https://h/upload/fl_attachment:report-01-02-2025.pdf/v1/p.pdf" := by
  exact ⟨rfl, by decide⟩

/-- C8 as amended: for a non-expired container the share page embeds,
for every file, a disposition filename of the exact form
`cleanBaseName-MM-DD-YYYY extension` with the retrieval-time date, where
a missing `cleanName`/`extension` is derived from `originalName`; the
single-file download route injects a filename of the same dated form but
falls back to the literal base `download` and the empty extension instead
of deriving from `originalName`. -/
theorem c8_amended :
    (∀ (repo : List Container) (u : String) (c : Container) (now : Int) (civ : Civil),
        findByUuid repo u = some c → jsGtTime now c.expiresAt = false →
        sharePage repo u now civ
          = ShareResult.page c.name (c.files.map (fun f =>
              (f, jsReplaceFirst f.url "/upload/"
                ("/upload/fl_attachment:" ++ shareFilename civ f ++ "/"))))) ∧
    (∀ (civ : Civil) (f : FileRecord), f.cleanName = none → f.extension = none →
        shareFilename civ f
          = basenameExt f.originalName (extname f.originalName) ++ "-"
              ++ dateStr civ ++ extname f.originalName) ∧
    (∀ (civ : Civil) (f : FileRecord) (cn ex : String),
        f.cleanName = some cn → cn ≠ "" → f.extension = some ex → ex ≠ "" →
        shareFilename civ f = cn ++ "-" ++ dateStr civ ++ ex) ∧
    (∀ (civ : Civil) (f : FileRecord), f.cleanName = none → f.extension = none →
        downloadFilename civ f = "download" ++ "-" ++ dateStr civ) ∧
    (∀ (repo : List Container) (i : String) (c : Container) (f : FileRecord)
        (civ : Civil),
        findByFileId repo i = some (c, some f) → f.url ≠ "" →
        containsSub f.url "/upload/" = true →
        actionDownload repo i civ
          = DownloadResult.redirect (jsReplaceFirst f.url "/upload/"
              ("/upload/fl_attachment:" ++ downloadFilename civ f ++ "/"))) := by
  refine ⟨?_, ?_, ?_, ?_, ?_⟩
  · intro repo u c now civ hfind hexp
    simp only [sharePage, hfind]
    rw [hexp]
    rfl
  · intro civ f hcn hex
    simp [shareFilename, jsOr, hcn, hex]
  · intro civ f cn ex hcn hcne hex hexe
    simp [shareFilename, jsOr, hcn, hcne, hex, hexe]
  · intro civ f hcn hex
    simp [downloadFilename, jsOr, hcn, hex]
  · intro repo i c f civ hfind hurl hcontains
    simp [actionDownload, hfind, hurl, hcontains]

/-- Witness for the amended C8: the share page derives
`report-01-02-2025.pdf` from `originalName` for a legacy record. -/
theorem c8_amended_witness :
    sharePage
        [⟨1, "u1", "n",
            [⟨"f1", "report.pdf", none, none, "https://h/upload/v1/p.pdf", "p1",
              1, "pdf", some "raw"⟩], 0, some 999999⟩] "u1" 5 ⟨0, 2, 2025⟩
      = ShareResult.page "n"
          [(⟨"f1", "report.pdf", none, none, "https://h/upload/v1/p.pdf", "p1",
              1, "pdf", some "raw"⟩,
            "https://h/upload/fl_attachment:report-01-02-2025.pdf/v1/p.pdf")] := by
  rw [c8_amended.1
    [⟨1, "u1", "n",
        [⟨"f1", "report.pdf", none, none, "https://h/upload/v1/p.pdf", "p1",
          1, "pdf", some "raw"⟩], 0, some 999999⟩] "u1"
    ⟨1, "u1", "n",
      [⟨"f1", "report.pdf", none, none, "https://h/upload/v1/p.pdf", "p1",
        1, "pdf", some "raw"⟩], 0, some 999999⟩ 5 ⟨0, 2, 2025⟩ rfl rfl]
  rfl

end BilyaBytes
